import Mathlib

/-!
Shallow embedding of the Smart-Document-Analyzer extraction/analysis pipeline
(src/src/components/DocumentUpload.tsx and src/src/pages/Index.tsx).

Text is modelled as `List Char`; the external libraries (pdfjs `getDocument`,
mammoth `extractRawText`, JSZip `loadAsync`/`async`) are modelled as the
pre-computed outcome each library would return for the file's byte buffer.
JavaScript exceptions are modelled with `Except`; an `Error` thrown by the
application code carries its message (`Err.msg`), while a rejection coming out
of an external library is opaque (`Err.lib`).
-/

/-- Text values (JavaScript strings), modelled as lists of characters. -/
abbrev Str := List Char

/-- Convert a Lean string literal into the `Str` model. -/
def str (s : String) : Str := s.data

/-- The model of JavaScript whitespace used by `trim` and `split(/\s+/)`. -/
def jsWS (c : Char) : Bool := c.isWhitespace

/-- JavaScript `String.prototype.trim`: drop leading and trailing whitespace. -/
def jsTrim (l : Str) : Str :=
  ((l.dropWhile jsWS).reverse.dropWhile jsWS).reverse

/-- JavaScript `Array.prototype.join(sep)`. -/
def joinWith (sep : Str) : List Str → Str
  | [] => []
  | [x] => x
  | x :: y :: xs => x ++ sep ++ joinWith sep (y :: xs)

/-- The state machine behind JavaScript `split(/\s+/)`: `cur` holds the
characters of the piece being accumulated (reversed), and `inWs` records
whether the machine is inside a whitespace run (a maximal run is a single
separator). A whitespace character closes the current piece when a piece was
being built, and is absorbed when the machine is already inside a run; a
string ending inside a run yields a trailing empty piece. -/
def splitGo : List Char → Bool → Str → List Str
  | [], _, cur => [cur.reverse]
  | c :: rest, inWs, cur =>
    if jsWS c then
      if inWs then splitGo rest true cur
      else cur.reverse :: splitGo rest true []
    else splitGo rest false (c :: cur)

/-- JavaScript `String.prototype.split(/\s+/)`: split on maximal whitespace
runs, keeping the empty pieces that JS produces at the boundaries. -/
def jsSplitWs (l : Str) : List Str := splitGo l false []

/-- JavaScript `String.prototype.endsWith`. -/
def jsEndsWith (suffix l : Str) : Bool := List.isSuffixOf suffix l

/-- JavaScript `x || d` for an optional string value `x`: the default is used
when `x` is `undefined` or the empty string. -/
def jsOrStr (x : Option Str) (d : Str) : Str :=
  match x with
  | some s => if s = [] then d else s
  | none => d

/-- JavaScript `x || []` for an optional array value `x` (arrays, even empty
ones, are truthy). -/
def jsOrList (x : Option (List Str)) : List Str :=
  match x with
  | some l => l
  | none => []

instance instDecEqExcept {ε α : Type} [DecidableEq ε] [DecidableEq α] :
    DecidableEq (Except ε α) := fun a b =>
  match a, b with
  | .ok x, .ok y =>
    if h : x = y then isTrue (by rw [h]) else isFalse fun hh => h (Except.ok.inj hh)
  | .ok _, .error _ => isFalse fun hh => Except.noConfusion hh
  | .error _, .ok _ => isFalse fun hh => Except.noConfusion hh
  | .error x, .error y =>
    if h : x = y then isTrue (by rw [h]) else isFalse fun hh => h (Except.error.inj hh)

/-- An error travelling through the pipeline: either an `Error` thrown by the
application code (with its message) or an opaque rejection raised by one of
the external parsing libraries. -/
inductive Err where
  | msg (s : Str)
  | lib (s : Str)
deriving DecidableEq

/-- A parsed PDF as pdfjs exposes it: `numPages` pages, each a list of text
items (`item.str`). `numPages` is the length of `pages`. -/
structure PdfDoc where
  pages : List (List Str)
deriving DecidableEq

/-- One member of a zip archive, as JSZip exposes it, together with the
outcome each `async` read / downstream parse would produce for it. -/
structure ZipEntry where
  name : Str
  dir : Bool
  /-- outcome of `zipEntry.async('text')` -/
  textData : Except Str Str
  /-- outcome of `zipEntry.async('arraybuffer')` followed by pdfjs `getDocument` -/
  pdfData : Except Str PdfDoc
  /-- outcome of `zipEntry.async('arraybuffer')` followed by mammoth `extractRawText` -/
  docxData : Except Str Str
deriving DecidableEq

/-- A file's byte buffer, modelled by the outcome each external library would
produce when asked to interpret it. -/
structure Buffer where
  /-- pdfjs `getDocument(...).promise` -/
  pdfParse : Except Str PdfDoc
  /-- mammoth `extractRawText` -/
  docxParse : Except Str Str
  /-- `file.text()` -/
  textContent : Str
  /-- JSZip `loadAsync` -/
  zipParse : Except Str (List ZipEntry)
deriving DecidableEq

/-- A user-supplied file: display name, declared MIME type, byte buffer. -/
structure SourceFile where
  name : Str
  type : Str
  buffer : Buffer
deriving DecidableEq

/-- The JSON object parsed out of the analysis service's message content.
Each field is optional because the reply is not validated: a field absent
from the JSON is `undefined` in the JS object. Graph items are opaque. -/
structure AnalysisJson where
  classification : Option Str
  summary : Option Str
  tags : Option (List Str)
  sentiment : Option Str
  insights : Option Str
  graphs : Option (List Str)
deriving DecidableEq

/-- The transport-level reply of the analysis service: the HTTP success flag
and, when the body is read, whether `JSON.parse` of the first choice's message
content succeeds (`some j`) or throws (`none`). -/
structure GroqResponse where
  ok : Bool
  content : Option AnalysisJson
deriving DecidableEq

/-- The metadata block of a persisted document. -/
structure DocMetadata where
  wordCount : Nat
  pageCount : Option Nat
  readingTime : Nat
  sentiment : Str
deriving DecidableEq

/-- The persisted `Document` record. `type`, `tags` and `summary` are copied
unvalidated from the analysis reply, so they can be `undefined`. -/
structure Document where
  id : Str
  name : Str
  type : Option Str
  tags : Option (List Str)
  summary : Option Str
  fullText : Str
  date : Str
  metadata : DocMetadata
  insights : Str
  graphs : List Str
deriving DecidableEq

/-- `extractTextFromPDFBuffer` (DocumentUpload.tsx lines 169-181): walk the
pages in ascending order, join each page's items with a single space, append
a blank line after every page, and trim the total. -/
def extractTextFromPDFBuffer (pdfData : Except Str PdfDoc) : Except Err Str :=
  match pdfData with
  | .error e => .error (.lib e)
  | .ok pdf =>
    .ok (jsTrim (pdf.pages.foldl
      (fun acc page => acc ++ joinWith (str " ") page ++ str "\n\n") []))

/-- `extractTextFromPDF` (DocumentUpload.tsx lines 193-206): same page walk,
but also reports `pdf.numPages`. -/
def extractTextFromPDF (b : Buffer) : Except Err (Str × Nat) :=
  match b.pdfParse with
  | .error e => .error (.lib e)
  | .ok pdf =>
    .ok (jsTrim (pdf.pages.foldl
      (fun acc page => acc ++ joinWith (str " ") page ++ str "\n\n") []),
      pdf.pages.length)

/-- `extractTextFromDOCX` (DocumentUpload.tsx lines 208-217). -/
def extractTextFromDOCX (b : Buffer) : Except Err Str :=
  match b.docxParse with
  | .ok v => .ok v
  | .error _ => .error (.msg (str "Failed to parse DOCX file"))

/-- `extractTextFromDOCXBuffer` (DocumentUpload.tsx lines 183-191). -/
def extractTextFromDOCXBuffer (docxData : Except Str Str) : Except Err Str :=
  match docxData with
  | .ok v => .ok v
  | .error _ => .error (.msg (str "Failed to parse DOCX file"))

/-- The extension computed at DocumentUpload.tsx line 135:
`filename.toLowerCase().substring(filename.lastIndexOf('.'))`. When the name
has no dot, `lastIndexOf` is `-1` and JS `substring` clamps it to `0`. -/
def extSuffix : Str → Option Str
  | [] => none
  | c :: rest =>
    match extSuffix rest with
    | some s => some s
    | none => if c = '.' then some (c :: rest) else none

/-- The lowercased substring of `filename` that starts at the last dot
(the whole lowercased name when there is no dot). -/
def entryExtension (filename : Str) : Str :=
  match extSuffix (filename.map Char.toLower) with
  | some s => s
  | none => filename.map Char.toLower

/-- The `supportedExtensions` list of DocumentUpload.tsx line 130. -/
def supportedExtensions : List Str := [str ".txt", str ".pdf", str ".docx"]

/-- The body of the per-entry `try` block inside `extractTextFromZIP`
(DocumentUpload.tsx lines 138-150): read the entry and dispatch on its
extension. -/
def zipEntryTry (e : ZipEntry) (ext : Str) : Except Err Str :=
  if ext = str ".txt" then
    match e.textData with
    | .ok t => .ok t
    | .error er => .error (.lib er)
  else if ext = str ".pdf" then
    extractTextFromPDFBuffer e.pdfData
  else if ext = str ".docx" then
    extractTextFromDOCXBuffer e.docxData
  else
    .ok []

/-- The entry loop of `extractTextFromZIP` (DocumentUpload.tsx lines 132-156):
directories are skipped, unsupported extensions are skipped, supported
entries append a labeled block to the accumulated `combinedText`, and a
per-entry failure appends the `[Error processing file]` block instead. -/
def zipCombined : List ZipEntry → Str → Str
  | [], acc => acc
  | e :: rest, acc =>
    if e.dir then zipCombined rest acc
    else
      let ext := entryExtension e.name
      if ext ∈ supportedExtensions then
        match zipEntryTry e ext with
        | .ok content =>
          zipCombined rest (acc ++ str "\n\n--- " ++ e.name ++ str " ---\n" ++ content)
        | .error _ =>
          zipCombined rest (acc ++ str "\n\n--- " ++ e.name ++ str " ---\n[Error processing file]")
      else zipCombined rest acc

/-- The body of the outer `try` of `extractTextFromZIP` (DocumentUpload.tsx
lines 124-162): load the archive, run the entry loop, and throw
`'No supported text files found in ZIP archive'` when the accumulated output
trims to nothing. -/
def extractTextFromZIPInner (b : Buffer) : Except Err Str :=
  match b.zipParse with
  | .error e => .error (.lib e)
  | .ok entries =>
    let combined := zipCombined entries []
    if jsTrim combined = [] then
      .error (.msg (str "No supported text files found in ZIP archive"))
    else .ok (jsTrim combined)

/-- `extractTextFromZIP` (DocumentUpload.tsx lines 123-167): the outer
`catch` converts every failure — including the no-supported-entries throw —
into `'Failed to parse ZIP file'`. -/
def extractTextFromZIP (b : Buffer) : Except Err Str :=
  match extractTextFromZIPInner b with
  | .ok t => .ok t
  | .error _ => .error (.msg (str "Failed to parse ZIP file"))

/-- The word count computed at DocumentUpload.tsx line 82:
`text.split(/\s+/).filter(word => word.length > 0).length`. -/
def wordCount (text : Str) : Nat :=
  ((jsSplitWs text).filter (fun w => w.length > 0)).length

/-- The reading time computed at DocumentUpload.tsx line 83:
`Math.ceil(wordCount / 200)` — the ceiling of `wc / 200`, written in its
executable natural-number form; `readingTime_eq_ceil` below proves it equal
to Mathlib's ceiling of the exact division. -/
def readingTime (wc : Nat) : Nat := (wc + 199) / 200

/-- The parse-failure fallback record of `analyzeWithGroq`
(DocumentUpload.tsx lines 264-271; the identical literal appears at
Index.tsx lines 347-354). -/
def parseFallback : AnalysisJson :=
  { classification := some (str "Others"),
    summary := some (str "Document analyzed successfully."),
    tags := some [str "document", str "analyzed"],
    sentiment := some (str "neutral"),
    insights := some (str "Document has been processed and analyzed."),
    graphs := some [] }

/-- The catch-all fallback record of Index.tsx `analyzeWithGroq`
(lines 358-365), returned when the fetch or the status check throws. -/
def catchFallback : AnalysisJson :=
  { classification := some (str "Others"),
    summary := some (str "Document analysis failed."),
    tags := some [str "document"],
    sentiment := some (str "neutral"),
    insights := some (str "Could not analyze the document content."),
    graphs := some [] }

/-- `analyzeWithGroq` of DocumentUpload.tsx (lines 219-273), used on the
upload path: a non-success status throws `'Groq API request failed'`; a
content body that fails `JSON.parse` yields the fixed fallback record. -/
def analyzeWithGroq (resp : GroqResponse) : Except Err AnalysisJson :=
  if resp.ok = false then .error (.msg (str "Groq API request failed"))
  else
    match resp.content with
    | some j => .ok j
    | none => .ok parseFallback

/-- `analyzeWithGroq` of Index.tsx (lines 300-367), used on the reprocess
path: the whole request sits inside a `try`, so a network exception
(`resp = none`) or a non-success status lands in the outer catch and returns
`catchFallback`; only a `JSON.parse` failure returns `parseFallback`. -/
def analyzeWithGroqIndex (resp : Option GroqResponse) : AnalysisJson :=
  match resp with
  | none => catchFallback
  | some r =>
    if r.ok = false then catchFallback
    else
      match r.content with
      | some j => j
      | none => parseFallback

/-- The extraction dispatch of `processFile` (DocumentUpload.tsx lines
60-75): route on the declared MIME type, with the `.zip` file-name fallback,
or throw `'Unsupported file type'`. -/
def extractStage (file : SourceFile) : Except Err (Str × Option Nat) :=
  if file.type = str "application/pdf" then
    match extractTextFromPDF file.buffer with
    | .ok (t, n) => .ok (t, some n)
    | .error e => .error e
  else if file.type = str "application/vnd.openxmlformats-officedocument.wordprocessingml.document" then
    match extractTextFromDOCX file.buffer with
    | .ok t => .ok (t, none)
    | .error e => .error e
  else if file.type = str "text/plain" then
    .ok (file.buffer.textContent, none)
  else if file.type = str "application/zip" ∨ jsEndsWith (str ".zip") file.name = true then
    match extractTextFromZIP file.buffer with
    | .ok t => .ok (t, none)
    | .error e => .error e
  else
    .error (.msg (str "Unsupported file type"))

/-- `processFile` (DocumentUpload.tsx lines 56-121): extraction dispatch,
empty-content check, metrics, analysis call, and record construction. The
generated id and today's date are passed in. An `.error` result models the
catch branch: the upload fails and no document is handed to the collection. -/
def processFile (file : SourceFile) (resp : GroqResponse) (uuid today : Str) :
    Except Err Document :=
  match extractStage file with
  | .error e => .error e
  | .ok (text, pageCount) =>
    if jsTrim text = [] then
      .error (.msg (str "No text content found in the document"))
    else
      match analyzeWithGroq resp with
      | .error e => .error e
      | .ok analysis =>
        .ok { id := uuid,
              name := file.name,
              type := analysis.classification,
              tags := analysis.tags,
              summary := analysis.summary,
              fullText := text,
              date := today,
              metadata := { wordCount := wordCount text,
                            pageCount := pageCount,
                            readingTime := readingTime (wordCount text),
                            sentiment := jsOrStr analysis.sentiment (str "neutral") },
              insights := jsOrStr analysis.insights [],
              graphs := jsOrList analysis.graphs }

/-- `handleDocumentUploaded` (Index.tsx lines 49-56): prepend the new record. -/
def handleDocumentUploaded (newDoc : Document) (docs : List Document) : List Document :=
  newDoc :: docs

/-- The updated record built by `handleReprocess` (Index.tsx lines 64-74):
spread of the old document with the analysis fields replaced. -/
def reprocessedDoc (doc : Document) (analysis : AnalysisJson) (today : Str) : Document :=
  { doc with
    type := analysis.classification,
    tags := analysis.tags,
    summary := analysis.summary,
    date := today,
    metadata := { doc.metadata with
                  sentiment := jsOrStr analysis.sentiment (str "neutral") } }

/-- `handleReprocess` (Index.tsx lines 58-93): re-analyze the stored full
text and replace the matching record in the collection. -/
def handleReprocess (docs : List Document) (doc : Document)
    (resp : Option GroqResponse) (today : Str) : List Document :=
  let analysis := analyzeWithGroqIndex resp
  let updatedDoc := reprocessedDoc doc analysis today
  docs.map (fun d => if d.id = doc.id then updatedDoc else d)

/-- `handleDelete` (Index.tsx lines 95-105): drop the record with this id. -/
def handleDelete (docs : List Document) (docId : Str) : List Document :=
  docs.filter (fun d => d.id ≠ docId)

/-!
Spec-side definitions: formalizations of the specification's wording, to be
compared with the definitions translated from the source above.
-/

/-- Modelled from the spec (§4.5): the whitespace-delimited non-empty tokens
of a text — the list of maximal non-whitespace runs. -/
def specWords : Str → List Str
  | [] => []
  | c :: rest =>
    if jsWS c then specWords rest
    else (c :: rest.takeWhile (fun x => !jsWS x)) ::
      specWords (rest.dropWhile (fun x => !jsWS x))
termination_by l => l.length
decreasing_by
  · exact Nat.lt_succ_self _
  · exact Nat.lt_succ_of_le ((List.dropWhile_sublist _).length_le)

/-- Modelled from the spec (§4.4, steps 1-6): the block one archive entry
contributes to the accumulated output — nothing for a directory marker or an
unsupported extension, a labeled text block on success, and the labeled
`[Error processing file]` block when the entry's extraction throws. -/
def entryBlockSpec (e : ZipEntry) : Option Str :=
  if e.dir then none
  else if entryExtension e.name ∈ supportedExtensions then
    match zipEntryTry e (entryExtension e.name) with
    | .ok t => some (str "\n\n--- " ++ e.name ++ str " ---\n" ++ t)
    | .error _ => some (str "\n\n--- " ++ e.name ++ str " ---\n[Error processing file]")
  else none

/-!
Concrete sample values, used to evaluate the definitions on explicit inputs.
-/

/-- A two-page PDF with distinguishable per-page markers. -/
def cPdfDoc : PdfDoc := { pages := [[str "alpha", str "beta"], [str "gamma"]] }

/-- A buffer that parses as the two-page PDF and as nothing else. -/
def cBufPdf : Buffer :=
  { pdfParse := .ok cPdfDoc,
    docxParse := .error (str "not a docx"),
    textContent := [],
    zipParse := .error (str "not a zip") }

/-- A PDF upload. -/
def cFilePdf : SourceFile :=
  { name := str "a.pdf", type := str "application/pdf", buffer := cBufPdf }

/-- An upload whose declared type matches no recognized kind and whose name
does not end in `.zip`. -/
def cFilePng : SourceFile :=
  { name := str "x.png", type := str "image/png", buffer := cBufPdf }

/-- A fully-populated analysis reply object. -/
def cAnalysis : AnalysisJson :=
  { classification := some (str "Others"),
    summary := some (str "fine"),
    tags := some [str "a"],
    sentiment := some (str "positive"),
    insights := some (str "insight"),
    graphs := some [] }

/-- A reply object that parsed as JSON but carries none of the required
fields (the parse of `\x7b\x7d`). -/
def cEmptyAnalysis : AnalysisJson :=
  { classification := none, summary := none, tags := none,
    sentiment := none, insights := none, graphs := none }

/-- A successful transport reply whose content parses to `cAnalysis`. -/
def cRespOk : GroqResponse := { ok := true, content := some cAnalysis }

/-- A transport failure: the HTTP response has a non-success status. -/
def cRespFail : GroqResponse := { ok := false, content := none }

/-- A zip entry that is a `.jpg` photo: not a supported extension. -/
def cJpgEntry : ZipEntry :=
  { name := str "photo.jpg", dir := false,
    textData := .ok (str "jpeg bytes"),
    pdfData := .error (str "not a pdf"),
    docxData := .error (str "not a docx") }

/-- A buffer holding a zip archive whose only entry is the `.jpg` photo. -/
def cBufJpgZip : Buffer :=
  { pdfParse := .error (str "not a pdf"),
    docxParse := .error (str "not a docx"),
    textContent := [],
    zipParse := .ok [cJpgEntry] }

/-- A valid `.txt` zip entry. -/
def cTxtEntry : ZipEntry :=
  { name := str "notes.txt", dir := false,
    textData := .ok (str "hello zip"),
    pdfData := .error (str "not a pdf"),
    docxData := .error (str "not a docx") }

/-- A corrupted `.pdf` zip entry: reading it throws. -/
def cBadPdfEntry : ZipEntry :=
  { name := str "broken.pdf", dir := false,
    textData := .ok (str "raw"),
    pdfData := .error (str "corrupt"),
    docxData := .error (str "not a docx") }

/-- A buffer holding a zip archive with the valid `.txt` entry followed by
the corrupted `.pdf` entry. -/
def cBufZipMixed : Buffer :=
  { pdfParse := .error (str "not a pdf"),
    docxParse := .error (str "not a docx"),
    textContent := [],
    zipParse := .ok [cTxtEntry, cBadPdfEntry] }

/-- A persisted document. -/
def cDoc1 : Document :=
  { id := str "id-1", name := str "a.txt",
    type := some (str "Others"), tags := some [str "t"],
    summary := some (str "old summary"),
    fullText := str "hello world", date := str "2025-01-01",
    metadata := { wordCount := 2, pageCount := none,
                  readingTime := 1, sentiment := str "neutral" },
    insights := [], graphs := [] }

/-- A second persisted document with a different id. -/
def cDoc2 : Document :=
  { id := str "id-2", name := str "b.txt",
    type := some (str "Others"), tags := some [str "t"],
    summary := some (str "other summary"),
    fullText := str "more text here", date := str "2025-01-02",
    metadata := { wordCount := 3, pageCount := none,
                  readingTime := 1, sentiment := str "neutral" },
    insights := [], graphs := [] }

/-- The document record that a successful upload of `cFilePdf` under the
reply `cRespOk` produces. -/
def cDocPdf : Document :=
  { id := str "id-9", name := str "a.pdf",
    type := some (str "Others"), tags := some [str "a"],
    summary := some (str "fine"),
    fullText := str "alpha beta\n\ngamma", date := str "2026-02-02",
    metadata := { wordCount := 3, pageCount := some 2,
                  readingTime := 1, sentiment := str "positive" },
    insights := str "insight", graphs := [] }

/-!
Helper lemmas.
-/

theorem mem_dropWhile_of_neg {p : Char → Bool} {l : Str} {c : Char}
    (hc : p c = false) (h : c ∈ l) : c ∈ l.dropWhile p := by
  induction l with
  | nil => cases h
  | cons a as ih =>
    by_cases hpa : p a = true
    · rw [List.dropWhile_cons, if_pos hpa]
      rcases List.mem_cons.mp h with rfl | hmem
      · rw [hpa] at hc; cases hc
      · exact ih hmem
    · rw [List.dropWhile_cons, if_neg hpa]
      exact h

theorem mem_jsTrim {l : Str} {c : Char} (hc : jsWS c = false) (h : c ∈ l) :
    c ∈ jsTrim l := by
  unfold jsTrim
  exact List.mem_reverse.mpr
    (mem_dropWhile_of_neg hc (List.mem_reverse.mpr (mem_dropWhile_of_neg hc h)))

theorem jsTrim_ne_nil {l : Str} {c : Char} (hc : jsWS c = false) (h : c ∈ l) :
    jsTrim l ≠ [] :=
  List.ne_nil_of_mem (mem_jsTrim hc h)

theorem dropWhile_eq_nil_of_all {p : Char → Bool} {l : Str}
    (h : ∀ c ∈ l, p c = true) : l.dropWhile p = [] :=
  List.dropWhile_eq_nil_iff.mpr h

/-- Appending an all-whitespace suffix does not change the trimmed value. -/
theorem jsTrim_append_ws {x s : Str} (hs : ∀ c ∈ s, jsWS c = true) :
    jsTrim (x ++ s) = jsTrim x := by
  unfold jsTrim
  rw [List.dropWhile_append]
  by_cases hx : (x.dropWhile jsWS).isEmpty = true
  · rw [if_pos hx]
    rw [List.isEmpty_iff] at hx
    rw [hx, dropWhile_eq_nil_of_all hs]
  · rw [if_neg hx]
    rw [List.reverse_append, List.dropWhile_append]
    have hsrev : (s.reverse.dropWhile jsWS).isEmpty = true := by
      rw [List.isEmpty_iff]
      exact dropWhile_eq_nil_of_all (fun c hcm => hs c (List.mem_reverse.mp hcm))
    rw [if_pos hsrev]

theorem foldl_append_init (g : α → Str) (s : Str) (ps : List α) (a : Str) :
    ps.foldl (fun acc p => acc ++ g p ++ s) a
      = a ++ ps.foldl (fun acc p => acc ++ g p ++ s) [] := by
  induction ps generalizing a with
  | nil => simp
  | cons p ps ih =>
    simp only [List.foldl_cons]
    rw [ih, ih (([] : Str) ++ g p ++ s)]
    simp [List.append_assoc]

theorem foldl_eq_joinWith (g : α → Str) (s : Str) (ps : List α) (hps : ps ≠ []) :
    ps.foldl (fun acc p => acc ++ g p ++ s) [] = joinWith s (ps.map g) ++ s := by
  induction ps with
  | nil => cases hps rfl
  | cons p ps ih =>
    cases ps with
    | nil => simp [joinWith]
    | cons q qs =>
      rw [List.foldl_cons, foldl_append_init, ih (by simp)]
      simp only [List.map_cons, joinWith, List.nil_append, List.append_assoc]

/-- The PDF page loop, trimmed, equals the trimmed blank-line join of the
per-page space-joined items. -/
theorem pdf_fold_eq_join (pages : List (List Str)) :
    jsTrim (pages.foldl (fun acc page => acc ++ joinWith (str " ") page ++ str "\n\n") [])
      = jsTrim (joinWith (str "\n\n") (pages.map (joinWith (str " ")))) := by
  cases pages with
  | nil => simp [joinWith]
  | cons p ps =>
    rw [foldl_eq_joinWith _ _ _ (by simp)]
    exact jsTrim_append_ws (by decide)


/-- Leaving the whitespace state: absorbing the rest of the whitespace run
and restarting is the same as splitting the remainder from the start state. -/
theorem splitGo_true_eq (l : Str) :
    splitGo l true [] = splitGo (l.dropWhile jsWS) false [] := by
  induction l with
  | nil => rfl
  | cons c rest ih =>
    by_cases hc : jsWS c = true
    · rw [List.dropWhile_cons, if_pos hc]
      rw [splitGo, if_pos hc]
      exact ih
    · rw [List.dropWhile_cons, if_neg hc]
      rw [splitGo, if_neg hc, splitGo, if_neg hc]

/-- Structure of the start state: the head piece is the pending prefix
together with the leading non-whitespace run, and the remaining pieces come
from the whitespace state. -/
theorem splitGo_false_structure (l : Str) (cur : Str) :
    splitGo l false cur = (cur.reverse ++ l.takeWhile (fun c => !jsWS c)) ::
      (match l.dropWhile (fun c => !jsWS c) with
       | [] => []
       | _ :: r => splitGo r true []) := by
  induction l generalizing cur with
  | nil => simp [splitGo]
  | cons c rest ih =>
    by_cases hc : jsWS c = true
    · rw [splitGo, if_pos hc]
      rw [List.takeWhile_cons, List.dropWhile_cons]
      simp only [hc, Bool.not_true, if_false]
      simp
    · rw [splitGo, if_neg hc]
      rw [List.takeWhile_cons, List.dropWhile_cons]
      simp only [hc, Bool.not_false]
      simp only [Bool.not_eq_true] at hc
      simp only [hc, Bool.not_false, if_true]
      rw [ih]
      simp [List.append_assoc]

theorem head_dropWhile_neg {p : Char → Bool} {l : Str} {c : Char} {cs : Str}
    (h : l.dropWhile p = c :: cs) : p c = false := by
  induction l with
  | nil => cases h
  | cons a as ih =>
    by_cases hpa : p a = true
    · rw [List.dropWhile_cons, if_pos hpa] at h
      exact ih h
    · rw [List.dropWhile_cons, if_neg hpa] at h
      cases h
      exact Bool.eq_false_iff.mpr hpa

theorem specWords_dropWhile (l : Str) :
    specWords (l.dropWhile jsWS) = specWords l := by
  induction l with
  | nil => rfl
  | cons c rest ih =>
    by_cases hc : jsWS c = true
    · rw [List.dropWhile_cons, if_pos hc, ih]
      rw [specWords, if_pos hc]
    · rw [List.dropWhile_cons, if_neg hc]

theorem splitGo_false_nil (l : Str) (cur : Str)
    (h : l.dropWhile (fun c => !jsWS c) = []) :
    splitGo l false cur = [cur.reverse ++ l.takeWhile (fun c => !jsWS c)] := by
  rw [splitGo_false_structure, h]

theorem splitGo_false_cons (l : Str) (cur : Str) {r : Char} {rs : Str}
    (h : l.dropWhile (fun c => !jsWS c) = r :: rs) :
    splitGo l false cur =
      (cur.reverse ++ l.takeWhile (fun c => !jsWS c)) :: splitGo rs true [] := by
  rw [splitGo_false_structure, h]

/-- The source's tokenization (`split(/\s+/)` followed by dropping empty
pieces) produces exactly the maximal non-whitespace runs. -/
theorem filter_jsSplitWs_eq_specWords (l : Str) :
    (jsSplitWs l).filter (fun w => w.length > 0) = specWords l := by
  suffices h : ∀ n (l : Str), l.length ≤ n →
      (splitGo l false []).filter (fun w => w.length > 0) = specWords l from
    h l.length l (Nat.le_refl _)
  intro n
  induction n with
  | zero =>
    intro l hl
    rw [Nat.le_zero, List.length_eq_zero] at hl
    subst hl
    simp [splitGo, specWords]
  | succ n ih =>
    intro l hl
    cases l with
    | nil => simp [splitGo, specWords]
    | cons c rest =>
      have hrest : rest.length ≤ n := Nat.le_of_succ_le_succ hl
      by_cases hc : jsWS c = true
      · rw [splitGo, if_pos hc, if_neg (by simp), List.reverse_nil]
        rw [List.filter_cons, if_neg (by simp)]
        rw [splitGo_true_eq,
          ih _ (Nat.le_trans ((List.dropWhile_sublist _).length_le) hrest),
          specWords_dropWhile]
        rw [specWords, if_pos hc]
      · rw [splitGo, if_neg hc]
        rw [specWords, if_neg hc]
        cases hr : rest.dropWhile (fun x => !jsWS x) with
        | nil =>
          rw [splitGo_false_nil _ _ hr]
          rw [List.filter_cons, if_pos (by simp)]
          simp [specWords]
        | cons r rs =>
          have hrws : jsWS r = true := by
            have := head_dropWhile_neg hr
            simpa using this
          have hrs : rs.length ≤ n := by
            have hsub : (r :: rs).length ≤ rest.length := by
              rw [← hr]
              exact (List.dropWhile_sublist _).length_le
            exact Nat.le_trans (Nat.le_of_succ_le hsub) hrest
          rw [splitGo_false_cons _ _ hr]
          rw [List.filter_cons, if_pos (by simp)]
          rw [splitGo_true_eq,
            ih _ (Nat.le_trans ((List.dropWhile_sublist _).length_le) hrs),
            specWords_dropWhile]
          rw [specWords, if_pos hrws]
          simp

/-- The executable reading time is the ceiling of the exact division
`wc / 200`, i.e. JavaScript's `Math.ceil(wordCount / 200)`. -/
theorem readingTime_eq_ceil (wc : Nat) : readingTime wc = ⌈(wc : ℚ) / 200⌉₊ := by
  rcases Nat.eq_zero_or_pos wc with h | h
  · subst h
    simp [readingTime]
  · have h200 : (0 : ℚ) < 200 := by norm_num
    have hn : readingTime wc ≠ 0 := by
      simp only [readingTime]
      omega
    symm
    rw [Nat.ceil_eq_iff hn]
    refine ⟨?_, ?_⟩
    · rw [lt_div_iff₀ h200]
      have hlt : (readingTime wc - 1) * 200 < wc := by
        simp only [readingTime]
        omega
      exact_mod_cast hlt
    · rw [div_le_iff₀ h200]
      have hle : wc ≤ readingTime wc * 200 := by
        simp only [readingTime]
        omega
      exact_mod_cast hle

/-- The archive entry loop is the concatenation, in enumeration order, of
the per-entry blocks described by the spec. -/
theorem zipCombined_eq_blocks (entries : List ZipEntry) (acc : Str) :
    zipCombined entries acc = acc ++ (entries.filterMap entryBlockSpec).flatten := by
  induction entries generalizing acc with
  | nil => simp [zipCombined]
  | cons e rest ih =>
    rw [zipCombined]
    by_cases hdir : e.dir = true
    · rw [if_pos hdir, ih]
      rw [List.filterMap_cons, entryBlockSpec, if_pos hdir]
    · rw [if_neg hdir]
      by_cases hext : entryExtension e.name ∈ supportedExtensions
      · rw [if_pos hext]
        rw [List.filterMap_cons, entryBlockSpec, if_neg hdir, if_pos hext]
        cases htry : zipEntryTry e (entryExtension e.name) with
        | ok t =>
          simp [ih, List.append_assoc]
        | error er =>
          simp [ih, List.append_assoc]
      · rw [if_neg hext, ih]
        rw [List.filterMap_cons, entryBlockSpec, if_neg hdir, if_neg hext]

theorem extractTextFromPDF_error (b : Buffer) (e : Err)
    (h : extractTextFromPDF b = .error e) : ∃ s, e = Err.lib s := by
  unfold extractTextFromPDF at h
  cases hb : b.pdfParse with
  | ok pdf =>
    rw [hb] at h
    exact Except.noConfusion h
  | error s =>
    rw [hb] at h
    injection h with h2
    exact ⟨s, h2.symm⟩

theorem extractTextFromZIP_error (b : Buffer) (e : Err)
    (h : extractTextFromZIP b = .error e) :
    e = .msg (str "Failed to parse ZIP file") := by
  unfold extractTextFromZIP at h
  cases hi : extractTextFromZIPInner b with
  | ok t =>
    rw [hi] at h
    exact Except.noConfusion h
  | error e2 =>
    rw [hi] at h
    injection h with h2
    exact h2.symm

/-- The dispatcher throws `'Unsupported file type'` exactly when the declared
MIME type matches none of the four recognized kinds and the name does not
end in `.zip`. -/
theorem extractStage_unsupported_iff (file : SourceFile) :
    extractStage file = .error (.msg (str "Unsupported file type"))
      ↔ (file.type ≠ str "application/pdf"
        ∧ file.type ≠ str "application/vnd.openxmlformats-officedocument.wordprocessingml.document"
        ∧ file.type ≠ str "text/plain"
        ∧ file.type ≠ str "application/zip"
        ∧ jsEndsWith (str ".zip") file.name = false) := by
  unfold extractStage
  split_ifs with h1 h2 h3 h4
  · refine iff_of_false (fun hh => ?_) (fun hr => hr.1 h1)
    cases hb : file.buffer.pdfParse with
    | ok pdf =>
      simp [extractTextFromPDF, hb] at hh
    | error s =>
      simp only [extractTextFromPDF, hb] at hh
      injection hh with h5
      exact Err.noConfusion h5
  · refine iff_of_false (fun hh => ?_) (fun hr => hr.2.1 h2)
    cases hb : file.buffer.docxParse with
    | ok v =>
      simp [extractTextFromDOCX, hb] at hh
    | error s =>
      simp only [extractTextFromDOCX, hb] at hh
      injection hh with h5
      injection h5 with h6
      exact absurd h6 (by decide)
  · refine iff_of_false (fun hh => ?_) (fun hr => hr.2.2.1 h3)
    exact hh
  · refine iff_of_false (fun hh => ?_) (fun hr => ?_)
    · cases hz : extractTextFromZIP file.buffer with
      | ok t =>
        rw [hz] at hh
        exact Except.noConfusion hh
      | error e =>
        rw [hz] at hh
        have he := extractTextFromZIP_error _ _ hz
        subst he
        injection hh with h5
        injection h5 with h6
        exact absurd h6 (by decide)
    · rcases h4 with h4a | h4b
      · exact hr.2.2.2.1 h4a
      · rw [hr.2.2.2.2] at h4b
        exact Bool.noConfusion h4b
  · refine iff_of_true rfl ⟨h1, h2, h3, fun hz => h4 (Or.inl hz), ?_⟩
    exact Bool.eq_false_iff.mpr (fun hb => h4 (Or.inr hb))

/-- `processFile` surfaces `'Unsupported file type'` exactly when the
dispatch stage does: no later stage produces that message. -/
theorem processFile_unsupported_iff (file : SourceFile) (resp : GroqResponse)
    (uuid today : Str) :
    processFile file resp uuid today = .error (.msg (str "Unsupported file type"))
      ↔ extractStage file = .error (.msg (str "Unsupported file type")) := by
  unfold processFile
  cases hes : extractStage file with
  | error e => simp [hes]
  | ok v =>
    cases v with
    | mk t pc =>
      simp only [hes]
      refine iff_of_false (fun hh => ?_) (fun hh => Except.noConfusion hh)
      by_cases ht : jsTrim t = []
      · rw [if_pos ht] at hh
        injection hh with h5
        injection h5 with h6
        exact absurd h6 (by decide)
      · rw [if_neg ht] at hh
        cases ha : analyzeWithGroq resp with
        | ok a =>
          rw [ha] at hh
          exact Except.noConfusion hh
        | error e =>
          rw [ha] at hh
          have he : e = .msg (str "Groq API request failed") := by
            unfold analyzeWithGroq at ha
            by_cases hok : resp.ok = false
            · rw [if_pos hok] at ha
              injection ha with h7
              exact h7.symm
            · rw [if_neg hok] at ha
              cases hc : resp.content with
              | some j =>
                rw [hc] at ha
                exact Except.noConfusion ha
              | none =>
                rw [hc] at ha
                exact Except.noConfusion ha
          subst he
          injection hh with h5
          injection h5 with h6
          exact absurd h6 (by decide)

/-- The dispatch stage reports a page count exactly on the PDF branch. -/
theorem extractStage_pageCount (file : SourceFile) (t : Str) (pc : Option Nat)
    (h : extractStage file = .ok (t, pc)) :
    (pc ≠ none ↔ file.type = str "application/pdf") := by
  unfold extractStage at h
  split_ifs at h with h1 h2 h3 h4
  · cases hb : file.buffer.pdfParse with
    | ok pdf =>
      simp only [extractTextFromPDF, hb] at h
      injection h with h5
      have hpc : pc = some pdf.pages.length := by
        have := congrArg Prod.snd h5
        simpa using this.symm
      rw [hpc]
      exact iff_of_true (by simp) h1
    | error s =>
      simp only [extractTextFromPDF, hb] at h
      exact Except.noConfusion h
  · cases hb : file.buffer.docxParse with
    | ok v =>
      simp only [extractTextFromDOCX, hb] at h
      injection h with h5
      have hpc : pc = none := by
        have := congrArg Prod.snd h5
        simpa using this.symm
      rw [hpc]
      exact iff_of_false (by simp) h1
    | error s =>
      simp only [extractTextFromDOCX, hb] at h
      exact Except.noConfusion h
  · injection h with h5
    have hpc : pc = none := by
      have := congrArg Prod.snd h5
      simpa using this.symm
    rw [hpc]
    exact iff_of_false (by simp) h1
  · cases hz : extractTextFromZIP file.buffer with
    | ok v =>
      rw [hz] at h
      injection h with h5
      have hpc : pc = none := by
        have := congrArg Prod.snd h5
        simpa using this.symm
      rw [hpc]
      exact iff_of_false (by simp) h1
    | error e =>
      rw [hz] at h
      exact Except.noConfusion h

/-!
Claim theorems.
-/

/-- Claim C1, counterexample: for a zip archive whose only entry is a
`.jpg` photo, the extractor does not surface the distinct
no-supported-entries error — the internal throw is caught by the extractor's
own catch-all and resurfaces as the malformed-zip message
`'Failed to parse ZIP file'`. -/
theorem claim_C1_counterexample :
    extractTextFromZIP cBufJpgZip = .error (.msg (str "Failed to parse ZIP file"))
    ∧ extractTextFromZIP cBufJpgZip
      ≠ .error (.msg (str "No supported text files found in ZIP archive")) := by
  constructor
  · decide
  · decide

/-- Claim C1, amended: when the archive loads but the accumulated output
trims to nothing, the extractor fails — but the no-supported-entries throw is
converted by the extractor's catch-all into `'Failed to parse ZIP file'`, the
very message of the malformed-zip path (second conjunct), so the two failure
paths are indistinguishable to the caller. -/
theorem claim_C1 (b : Buffer) (entries : List ZipEntry)
    (hz : b.zipParse = .ok entries)
    (hempty : jsTrim (zipCombined entries []) = []) :
    extractTextFromZIP b = .error (.msg (str "Failed to parse ZIP file"))
    ∧ ∀ b2 : Buffer, ∀ e2 : Str, b2.zipParse = .error e2 →
        extractTextFromZIP b2 = .error (.msg (str "Failed to parse ZIP file")) := by
  constructor
  · unfold extractTextFromZIP extractTextFromZIPInner
    rw [hz]
    simp only [hempty, if_pos]
  · intro b2 e2 hz2
    unfold extractTextFromZIP extractTextFromZIPInner
    rw [hz2]

/-- Claim C1, witness: the amended theorem applied to the `.jpg`-only
archive. -/
theorem claim_C1_witness :
    extractTextFromZIP cBufJpgZip = .error (.msg (str "Failed to parse ZIP file")) :=
  (claim_C1 cBufJpgZip [cJpgEntry] rfl (by decide)).1

/-- Claim C2, counterexample: a reprocess under a transport failure
(non-success status) does not surface any error — Index.tsx's
`analyzeWithGroq` catches it and returns the catch fallback record — and the
stored document IS replaced (the collection changes), contradicting
"the document is not saved" on the reprocess path. -/
theorem claim_C2_counterexample :
    analyzeWithGroqIndex (some cRespFail) = catchFallback
    ∧ handleReprocess [cDoc1] cDoc1 (some cRespFail) (str "2026-10-11")
      = [reprocessedDoc cDoc1 catchFallback (str "2026-10-11")]
    ∧ handleReprocess [cDoc1] cDoc1 (some cRespFail) (str "2026-10-11") ≠ [cDoc1] := by
  refine ⟨rfl, by decide, by decide⟩

/-- Claim C2, amended: on the upload path a non-success status is surfaced
as the thrown `'Groq API request failed'` error and no document is produced
for the collection; on the reprocess path the same failure is caught inside
Index.tsx's `analyzeWithGroq`, which returns the catch fallback record, so
the reprocess completes and the stored document is replaced with fallback
analysis values. -/
theorem claim_C2 (resp : GroqResponse) (hfail : resp.ok = false) :
    analyzeWithGroq resp = .error (.msg (str "Groq API request failed"))
    ∧ (∀ file : SourceFile, ∀ uuid today : Str, ∀ doc : Document,
        processFile file resp uuid today ≠ .ok doc)
    ∧ (∀ docs : List Document, ∀ doc : Document,
        ∀ content : Option AnalysisJson, ∀ today : Str,
        handleReprocess docs doc (some { ok := false, content := content }) today
          = docs.map (fun d => if d.id = doc.id
              then reprocessedDoc doc catchFallback today else d)) := by
  have hana : analyzeWithGroq resp = .error (.msg (str "Groq API request failed")) := by
    unfold analyzeWithGroq
    rw [if_pos hfail]
  refine ⟨hana, ?_, ?_⟩
  · intro file uuid today doc h
    cases hes : extractStage file with
    | error e =>
      unfold processFile at h
      rw [hes] at h
      exact Except.noConfusion h
    | ok v =>
      cases v with
      | mk t pc =>
        unfold processFile at h
        rw [hes] at h
        by_cases ht : jsTrim t = []
        · simp [ht] at h
        · simp [ht, hana] at h
  · intro docs doc content today
    rfl

/-- Claim C2, witness: the amended theorem applied to a concrete failed
transport reply. -/
theorem claim_C2_witness :
    analyzeWithGroq cRespFail = .error (.msg (str "Groq API request failed")) :=
  (claim_C2 cRespFail rfl).1

/-- Claim C3 (confirmed): a zip archive with at least one supported entry
that extracts successfully succeeds as a whole, and the result is the
trimmed concatenation, in enumeration order, of the per-entry labeled
blocks — a labeled text block for each successful entry and the labeled
`[Error processing file]` block for each failing supported entry — so no
per-entry failure aborts the call. -/
theorem claim_C3 (b : Buffer) (entries : List ZipEntry)
    (hz : b.zipParse = .ok entries)
    (hsucc : ∃ e t, e ∈ entries ∧ e.dir = false
      ∧ entryExtension e.name ∈ supportedExtensions
      ∧ zipEntryTry e (entryExtension e.name) = .ok t) :
    extractTextFromZIP b = .ok (jsTrim (entries.filterMap entryBlockSpec).flatten) := by
  obtain ⟨e, t, hmem, hdir, hext, htry⟩ := hsucc
  have hblock : entryBlockSpec e
      = some (str "\n\n--- " ++ e.name ++ str " ---\n" ++ t) := by
    unfold entryBlockSpec
    rw [if_neg (by simp [hdir]), if_pos hext, htry]
  have hmemf : (str "\n\n--- " ++ e.name ++ str " ---\n" ++ t)
      ∈ entries.filterMap entryBlockSpec :=
    List.mem_filterMap.mpr ⟨e, hmem, hblock⟩
  have hdash : '-' ∈ (entries.filterMap entryBlockSpec).flatten := by
    refine List.mem_flatten.mpr ⟨_, hmemf, ?_⟩
    simp only [List.mem_append]
    exact Or.inl (Or.inl (Or.inl (by decide)))
  have hcomb : zipCombined entries [] = (entries.filterMap entryBlockSpec).flatten := by
    rw [zipCombined_eq_blocks]
    rfl
  have hne : jsTrim (zipCombined entries []) ≠ [] := by
    rw [hcomb]
    exact jsTrim_ne_nil (by decide) hdash
  have hne2 : jsTrim (entries.filterMap entryBlockSpec).flatten ≠ [] := by
    rw [← hcomb]
    exact hne
  unfold extractTextFromZIP extractTextFromZIPInner
  rw [hz]
  simp only [hcomb, hne2, if_false, if_neg]

/-- Claim C3, witness: the archive with a valid `.txt` entry followed by a
corrupted `.pdf` entry. -/
theorem claim_C3_witness :
    extractTextFromZIP cBufZipMixed
      = .ok (jsTrim ([cTxtEntry, cBadPdfEntry].filterMap entryBlockSpec).flatten) :=
  claim_C3 cBufZipMixed [cTxtEntry, cBadPdfEntry] rfl
    ⟨cTxtEntry, str "hello zip", by decide, rfl, by decide, by decide⟩

/-- Claim C4 (confirmed): for a readable PDF, the extractor's output is the
trim of the pages, in ascending order, each page's items joined by a single
space and consecutive pages separated by a blank line, and the returned
page count is the number of pages; the buffer variant used inside archives
returns the same text. -/
theorem claim_C4 (b : Buffer) (pdf : PdfDoc) (h : b.pdfParse = .ok pdf) :
    extractTextFromPDF b
      = .ok (jsTrim (joinWith (str "\n\n") (pdf.pages.map (joinWith (str " ")))),
        pdf.pages.length)
    ∧ extractTextFromPDFBuffer (.ok pdf)
      = .ok (jsTrim (joinWith (str "\n\n") (pdf.pages.map (joinWith (str " "))))) := by
  constructor
  · unfold extractTextFromPDF
    simp only [h]
    rw [pdf_fold_eq_join]
  · unfold extractTextFromPDFBuffer
    simp only []
    rw [pdf_fold_eq_join]

/-- Claim C4, witness: the theorem applied to the concrete two-page PDF. -/
theorem claim_C4_witness :
    extractTextFromPDF cBufPdf
      = .ok (jsTrim (joinWith (str "\n\n") (cPdfDoc.pages.map (joinWith (str " ")))),
        cPdfDoc.pages.length) :=
  (claim_C4 cBufPdf cPdfDoc rfl).1

/-- Claim C5 (confirmed): `processFile` fails with `'Unsupported file type'`
exactly when the declared MIME type matches none of the four recognized
kinds and the name does not end in `.zip` (the extension-based fallback),
and it fails with `'No text content found in the document'` whenever the
chosen extractor returns text that trims to nothing. -/
theorem claim_C5 (file : SourceFile) (resp : GroqResponse) (uuid today : Str) :
    (processFile file resp uuid today = .error (.msg (str "Unsupported file type"))
      ↔ (file.type ≠ str "application/pdf"
        ∧ file.type ≠ str "application/vnd.openxmlformats-officedocument.wordprocessingml.document"
        ∧ file.type ≠ str "text/plain"
        ∧ file.type ≠ str "application/zip"
        ∧ jsEndsWith (str ".zip") file.name = false))
    ∧ (∀ text : Str, ∀ pc : Option Nat,
        extractStage file = .ok (text, pc) → jsTrim text = [] →
        processFile file resp uuid today
          = .error (.msg (str "No text content found in the document"))) := by
  constructor
  · rw [processFile_unsupported_iff]
    exact extractStage_unsupported_iff file
  · intro text pc hok htrim
    unfold processFile
    simp only [hok]
    rw [if_pos htrim]

/-- Claim C5, witness: a `.png` upload with an unrecognized MIME type fails
with the unsupported-format error. -/
theorem claim_C5_witness :
    processFile cFilePng cRespOk (str "id-9") (str "2026-02-02")
      = .error (.msg (str "Unsupported file type")) :=
  ((claim_C5 cFilePng cRespOk (str "id-9") (str "2026-02-02")).1).mpr
    ⟨by decide, by decide, by decide, by decide, by decide⟩

/-- Claim C6, counterexample: a service reply whose content parses as JSON
but carries none of the required fields is returned as-is by the analysis
client, not replaced by the fallback record; and the fallback record's
`insights` is a generic non-empty string, not empty. -/
theorem claim_C6_counterexample :
    analyzeWithGroq { ok := true, content := some cEmptyAnalysis } = .ok cEmptyAnalysis
    ∧ cEmptyAnalysis.classification = none
    ∧ cEmptyAnalysis ≠ parseFallback
    ∧ parseFallback.insights = some (str "Document has been processed and analyzed.")
    ∧ parseFallback.insights ≠ some [] := by
  refine ⟨rfl, rfl, by decide, rfl, by decide⟩

/-- Claim C6, amended: the fixed fallback record (classification "Others",
generic summary, tags and insights, sentiment "neutral", empty graphs) is
returned exactly when the message content fails to parse as JSON; a reply
that parses but lacks required fields is returned unchanged. -/
theorem claim_C6 (resp : GroqResponse) (hok : resp.ok = true) :
    (resp.content = none → analyzeWithGroq resp = .ok parseFallback)
    ∧ (∀ j : AnalysisJson, resp.content = some j → analyzeWithGroq resp = .ok j)
    ∧ parseFallback.classification = some (str "Others")
    ∧ parseFallback.summary = some (str "Document analyzed successfully.")
    ∧ parseFallback.tags = some [str "document", str "analyzed"]
    ∧ parseFallback.sentiment = some (str "neutral")
    ∧ parseFallback.insights = some (str "Document has been processed and analyzed.")
    ∧ parseFallback.graphs = some [] := by
  have hok2 : ¬resp.ok = false := by
    rw [hok]
    exact Bool.noConfusion
  refine ⟨?_, ?_, rfl, rfl, rfl, rfl, rfl, rfl⟩
  · intro hc
    unfold analyzeWithGroq
    rw [if_neg hok2, hc]
  · intro j hc
    unfold analyzeWithGroq
    rw [if_neg hok2, hc]

/-- Claim C6, witness: the amended theorem applied to a reply whose content
fails to parse. -/
theorem claim_C6_witness :
    analyzeWithGroq { ok := true, content := none } = .ok parseFallback :=
  (claim_C6 { ok := true, content := none } rfl).1 rfl

/-- Claim C7 (confirmed): a reprocess preserves the document's `id`,
`fullText`, `name` and the stored `wordCount`, `pageCount` and `readingTime`
(only `type`, `tags`, `summary`, `sentiment` and `date` are replaced), and
every collection slot whose document has a different id is left unchanged,
while the matching slot holds the updated record. -/
theorem claim_C7 (docs : List Document) (doc : Document)
    (resp : Option GroqResponse) (today : Str) :
    (reprocessedDoc doc (analyzeWithGroqIndex resp) today).id = doc.id
    ∧ (reprocessedDoc doc (analyzeWithGroqIndex resp) today).fullText = doc.fullText
    ∧ (reprocessedDoc doc (analyzeWithGroqIndex resp) today).name = doc.name
    ∧ (reprocessedDoc doc (analyzeWithGroqIndex resp) today).metadata.wordCount
        = doc.metadata.wordCount
    ∧ (reprocessedDoc doc (analyzeWithGroqIndex resp) today).metadata.pageCount
        = doc.metadata.pageCount
    ∧ (reprocessedDoc doc (analyzeWithGroqIndex resp) today).metadata.readingTime
        = doc.metadata.readingTime
    ∧ (handleReprocess docs doc resp today).length = docs.length
    ∧ (∀ i : Nat, ∀ h : i < docs.length, (docs[i]).id ≠ doc.id →
        (handleReprocess docs doc resp today)[i]? = some docs[i])
    ∧ (∀ i : Nat, ∀ h : i < docs.length, (docs[i]).id = doc.id →
        (handleReprocess docs doc resp today)[i]?
          = some (reprocessedDoc doc (analyzeWithGroqIndex resp) today)) := by
  refine ⟨rfl, rfl, rfl, rfl, rfl, rfl, by simp [handleReprocess], ?_, ?_⟩
  · intro i h hne
    simp only [handleReprocess]
    rw [List.getElem?_map, List.getElem?_eq_getElem h, Option.map_some']
    rw [if_neg hne]
  · intro i h heq
    simp only [handleReprocess]
    rw [List.getElem?_map, List.getElem?_eq_getElem h, Option.map_some']
    rw [if_pos heq]

/-- Claim C7, witness: reprocessing the first of two stored documents leaves
the second slot unchanged. -/
theorem claim_C7_witness :
    (handleReprocess [cDoc1, cDoc2] cDoc1 (some cRespFail) (str "2026-10-11"))[1]?
      = some cDoc2 :=
  (claim_C7 [cDoc1, cDoc2] cDoc1 (some cRespFail) (str "2026-10-11")).2.2.2.2.2.2.2.1
    1 (by decide) (by decide)

/-- Claim C8 (confirmed): `wordCount` counts the whitespace-delimited
non-empty tokens, `readingTime` is the ceiling of `wordCount / 200`; the
empty string has zero words and zero minutes, 200 words read in one minute
and 201 words in two. -/
theorem claim_C8 (text : Str) :
    wordCount text = (specWords text).length
    ∧ readingTime (wordCount text) = ⌈(wordCount text : ℚ) / 200⌉₊
    ∧ wordCount [] = 0
    ∧ readingTime (wordCount []) = 0
    ∧ readingTime 200 = 1
    ∧ readingTime 201 = 2 := by
  refine ⟨?_, readingTime_eq_ceil _, by decide, by decide, by decide, by decide⟩
  unfold wordCount
  rw [filter_jsSplitWs_eq_specWords]

/-- Claim C9 (confirmed): a successfully processed upload carries a
`pageCount` exactly when the file was dispatched as a PDF; in particular an
archive upload never yields one. -/
theorem claim_C9 (file : SourceFile) (resp : GroqResponse) (uuid today : Str)
    (doc : Document) (h : processFile file resp uuid today = .ok doc) :
    (doc.metadata.pageCount ≠ none ↔ file.type = str "application/pdf") := by
  cases hes : extractStage file with
  | error e =>
    unfold processFile at h
    rw [hes] at h
    exact Except.noConfusion h
  | ok v =>
    cases v with
    | mk t pc =>
      unfold processFile at h
      rw [hes] at h
      by_cases ht : jsTrim t = []
      · simp [ht] at h
      · cases ha : analyzeWithGroq resp with
        | error e =>
          simp [ht, ha] at h
        | ok a =>
          simp only [ht, ha, if_false] at h
          injection h with h2
          subst h2
          exact extractStage_pageCount file t pc hes

/-- Claim C9, witness: the theorem applied to a successful two-page PDF
upload. -/
theorem claim_C9_witness :
    cDocPdf.metadata.pageCount ≠ none ↔ cFilePdf.type = str "application/pdf" :=
  claim_C9 cFilePdf cRespOk (str "id-9") (str "2026-02-02") cDocPdf (by decide)

/-- Claim C10 (confirmed): an upload prepends the new record leaving every
pre-existing record unchanged, deletion keeps the surviving records in their
relative order (the result is a sublist containing every record with a
different id), and reprocess keeps every other slot unchanged in place — so
the collection stays in newest-first upload order across all operations. -/
theorem claim_C10 (docs : List Document) (newDoc : Document) (docId : Str)
    (doc : Document) (resp : Option GroqResponse) (today : Str) :
    handleDocumentUploaded newDoc docs = newDoc :: docs
    ∧ (handleDelete docs docId).Sublist docs
    ∧ (∀ d : Document, d ∈ docs → d.id ≠ docId → d ∈ handleDelete docs docId)
    ∧ (handleReprocess docs doc resp today).length = docs.length
    ∧ (∀ i : Nat, ∀ h : i < docs.length, (docs[i]).id ≠ doc.id →
        (handleReprocess docs doc resp today)[i]? = some docs[i]) := by
  refine ⟨rfl, List.filter_sublist _, ?_, by simp [handleReprocess], ?_⟩
  · intro d hd hne
    unfold handleDelete
    rw [List.mem_filter]
    exact ⟨hd, decide_eq_true hne⟩
  · intro i h hne
    simp only [handleReprocess]
    rw [List.getElem?_map, List.getElem?_eq_getElem h, Option.map_some']
    rw [if_neg hne]

/-- Claim C10, witness: deleting the first of two stored documents keeps the
second. -/
theorem claim_C10_witness :
    cDoc2 ∈ handleDelete [cDoc1, cDoc2] (str "id-1") :=
  (claim_C10 [cDoc1, cDoc2] cDoc1 (str "id-1") cDoc1 (some cRespFail)
    (str "2026-10-11")).2.2.1 cDoc2 (by decide) (by decide)
